import Mathlib

/- Shallow embedding of the Lumina Reader application
   (src/App.tsx, src/geminiService.ts, src/types.ts).

   React state hooks become fields of an explicit state record; event
   handlers become pure state transformers.  Nondeterministic inputs of
   the original code (Math.random id strings, Date.now timestamps, the
   network response of the lookup service, the uploaded file) are passed as
   explicit parameters.  JavaScript numbers used as page counters are
   modelled as Int; the zoom scale as Rat. -/

namespace Lumina

/-- View mode, from src/App.tsx line 19: type ViewMode = single | double. -/
inductive ViewMode
  | single
  | double
deriving DecidableEq, Repr

/-- Spatial rectangle (browser DOMRect); the rects field of a highlight is
declared in src/types.ts but never populated, so only equality matters here. -/
structure DOMRect where
  x : Int
  y : Int
  width : Int
  height : Int
deriving DecidableEq, Repr

/-- Highlight record, from src/types.ts lines 2-10.  The optional comment
field is an Option; none corresponds to the key being absent. -/
structure Highlight where
  id : String
  page : Int
  text : String
  color : String
  comment : Option String
  rects : List DOMRect
  timestamp : Int
deriving DecidableEq, Repr

/-- Dictionary lookup result, from src/types.ts lines 12-16. -/
structure DictionaryResult where
  word : String
  meaning : String
  synonyms : List String
deriving DecidableEq, Repr

/-- Opaque handle for a loaded PDF document; the only datum the state model
reads from it is its page count (pdf.numPages in src/App.tsx line 77). -/
structure PdfDoc where
  numPages : Int
deriving DecidableEq, Repr

/-- Opaque drawable surface (an HTMLCanvasElement); renderPage only tests
whether the ref currently holds one. -/
inductive Canvas
  | mk
deriving DecidableEq, Repr

/-- Application state: the useState hooks of the App component,
src/App.tsx lines 49-61 (theme and the dictionary loading flag are
presentation-only and not needed by any claim). -/
structure AppState where
  pdfDoc : Option PdfDoc
  numPages : Int
  currentPage : Int
  highlights : List Highlight
  selectedText : String
  showAnnotationModal : Bool
  activeNote : String
  editingHighlightId : Option String
  viewMode : ViewMode
  scale : Rat
deriving DecidableEq, Repr

/-- Initial zoom scale, src/App.tsx line 61: useState(1.2). -/
def initialScale : Rat := 1.2

/-- Initial view mode, src/App.tsx line 60: useState of the double mode. -/
def initialViewMode : ViewMode := .double

/-- Navigation step width, src/App.tsx lines 181 and 186:
const step = viewMode === double ? 2 : 1. -/
def stepOf : ViewMode → Int
  | .double => 2
  | .single => 1

/-- prevPage, src/App.tsx lines 180-183:
setCurrentPage(prev => Math.max(prev - step, 1)). -/
def prevPage (mode : ViewMode) (p : Int) : Int :=
  max (p - stepOf mode) 1

/-- nextPage, src/App.tsx lines 185-188:
setCurrentPage(prev => Math.min(prev + step, numPages)). -/
def nextPage (mode : ViewMode) (numPages p : Int) : Int :=
  min (p + stepOf mode) numPages

/-- The slice of state that page navigation reads and writes. -/
structure ViewState where
  currentPage : Int
  viewMode : ViewMode
deriving DecidableEq, Repr

/-- One user action on the navigation controls: the previous/next buttons
(src/App.tsx lines 272-285) or the view-mode toggle (lines 209-222). -/
inductive NavAction
  | prev
  | next
  | setMode (m : ViewMode)
deriving DecidableEq, Repr

/-- Effect of one navigation action on the view state, for a document with
numPages pages, invoking the state-updating handlers prevPage (src/App.tsx
lines 180-183), nextPage (lines 185-188) and setViewMode (lines 210 and
217) directly.  The disabled guards of the two page buttons (lines 274 and
281) are omitted here, so this step relation admits a superset of the
sequences the UI lets fire; navStepUI below adds those guards. -/
def navStep (numPages : Int) (s : ViewState) : NavAction → ViewState
  | .prev => { s with currentPage := prevPage s.viewMode s.currentPage }
  | .next => { s with currentPage := nextPage s.viewMode numPages s.currentPage }
  | .setMode m => { s with viewMode := m }

/-- Effect of a sequence of navigation actions under navStep. -/
def navRun (numPages : Int) (s : ViewState) (acts : List NavAction) : ViewState :=
  acts.foldl (navStep numPages) s

/-- Effect of one click on the navigation controls including the disabled
guards of the buttons: the previous button is disabled when
currentPage <= 1 (src/App.tsx line 274), the next button when
currentPage >= numPages or, in double mode, currentPage >= numPages - 1
(line 281); a click on a disabled button does not fire and leaves the
state unchanged.  The view-mode toggle buttons are never disabled. -/
def navStepUI (numPages : Int) (s : ViewState) : NavAction → ViewState
  | .prev =>
      if s.currentPage ≤ 1 then s
      else { s with currentPage := prevPage s.viewMode s.currentPage }
  | .next =>
      if s.currentPage ≥ numPages ∨
          (s.viewMode = ViewMode.double ∧ s.currentPage ≥ numPages - 1) then s
      else { s with currentPage := nextPage s.viewMode numPages s.currentPage }
  | .setMode m => { s with viewMode := m }

/-- Effect of a sequence of navigation clicks under navStepUI. -/
def navRunUI (numPages : Int) (s : ViewState) (acts : List NavAction) : ViewState :=
  acts.foldl (navStepUI numPages) s

/-- addHighlight, src/App.tsx lines 150-162.  The fresh random id
(Math.random().toString(36).substr(2, 9)) and the timestamp (Date.now())
are passed in as parameters newId and now; the record literal has no
comment key, hence comment := none.  The new record is prepended and the
active selection is cleared. -/
def addHighlight (s : AppState) (color newId : String) (now : Int) : AppState :=
  let nh : Highlight :=
    { id := newId, page := s.currentPage, text := s.selectedText,
      color := color, comment := none, rects := [], timestamp := now }
  { s with highlights := nh :: s.highlights, selectedText := "" }

/-- closeAnnotationModal, src/App.tsx lines 171-177. -/
def closeAnnotationModal (s : AppState) : AppState :=
  { s with showAnnotationModal := false, editingHighlightId := none,
           activeNote := "", selectedText := "" }

/-- saveHighlight, src/App.tsx lines 130-148.  When editingHighlightId is
set, the record with that id gets its comment replaced by activeNote via
map; otherwise a new record (color bg-stone-100, comment activeNote) is
prepended.  Either way the modal is closed afterwards. -/
def saveHighlight (s : AppState) (newId : String) (now : Int) : AppState :=
  match s.editingHighlightId with
  | some eid =>
      closeAnnotationModal
        { s with highlights :=
            s.highlights.map fun h =>
              if h.id = eid then { h with comment := some s.activeNote } else h }
  | none =>
      let nh : Highlight :=
        { id := newId, page := s.currentPage, text := s.selectedText,
          color := "bg-stone-100", comment := some s.activeNote,
          rects := [], timestamp := now }
      closeAnnotationModal { s with highlights := nh :: s.highlights }

/-- Drop leading whitespace characters from a character list. -/
def dropLeadingWs : List Char → List Char
  | [] => []
  | c :: rest => if c.isWhitespace then dropLeadingWs rest else c :: rest

/-- Model of the JavaScript String.prototype.trim used in src/App.tsx line
502: removes leading and trailing whitespace.  Defined by structural
recursion over the character list so that it evaluates on concrete
inputs. -/
def jsTrim (s : String) : String :=
  ⟨(dropLeadingWs (dropLeadingWs s.data).reverse).reverse⟩

/-- Clicking the save button of the annotation modal, src/App.tsx lines
500-506: the button is disabled exactly when activeNote.trim() is empty,
so saveHighlight runs only when the trimmed note is nonempty. -/
def clickSave (s : AppState) (newId : String) (now : Int) : AppState :=
  if jsTrim s.activeNote = "" then s else saveHighlight s newId now

/-- The delete handler, src/App.tsx line 315:
setHighlights(prev => prev.filter(x => x.id !== h.id)). -/
def deleteHighlight (s : AppState) (hid : String) : AppState :=
  { s with highlights := s.highlights.filter fun x => x.id ≠ hid }

/-- onFileChange, src/App.tsx lines 70-80: when a file is present, the
opened document is stored, numPages is set to its page count and
currentPage to 1; no other state hook is written. -/
def onFileChange (s : AppState) (file : Option PdfDoc) : AppState :=
  match file with
  | some pdf => { s with pdfDoc := some pdf, numPages := pdf.numPages, currentPage := 1 }
  | none => s

/-- Fallback dictionary record, src/geminiService.ts lines 33-37. -/
def fallbackResult (text : String) : DictionaryResult :=
  { word := text,
    meaning := "Não foi possível encontrar a definição.",
    synonyms := [] }

/-- getWordInsights, src/geminiService.ts lines 7-39.  The outcome of
JSON.parse on the service response is abstracted as parsed: some d when
the response text parses (the parsed structured data d is returned
verbatim), none when JSON.parse throws (the catch branch returns the
fallback record built from the original input text). -/
def getWordInsights (text : String) (parsed : Option DictionaryResult) : DictionaryResult :=
  match parsed with
  | some data => data
  | none => fallbackResult text

/-- renderPage, src/App.tsx lines 83-99.  The early-return guard is
if (!pdfDoc || !canvas || pageNumber > numPages || pageNumber < 1) return,
checked before pdfDoc.getPage(pageNumber) is called.  The model returns
some pageNumber when the page is fetched and drawn, none when the guard
returns early and nothing is requested. -/
def renderPage (doc : Option PdfDoc) (numPages pageNumber : Int)
    (canvas : Option Canvas) : Option Int :=
  match doc, canvas with
  | some _, some _ =>
      if numPages < pageNumber ∨ pageNumber < 1 then none else some pageNumber
  | _, _ => none

/-- The render-triggering effect, src/App.tsx lines 101-108: when a
document is loaded, the current page is rendered on the first canvas and,
in double mode and only when currentPage + 1 <= numPages, the next page on
the second canvas.  The result lists the page numbers actually requested. -/
def renderTrigger (s : AppState) (c1 c2 : Option Canvas) : List Int :=
  match s.pdfDoc with
  | none => []
  | some _ =>
      (renderPage s.pdfDoc s.numPages s.currentPage c1).toList ++
      (if s.viewMode = ViewMode.double ∧ s.currentPage + 1 ≤ s.numPages then
        (renderPage s.pdfDoc s.numPages (s.currentPage + 1) c2).toList
      else [])

/-- One operation on the highlight collection, with the ambient component
state it reads (current page, selected text, note buffer, editing id) and
the nondeterministic draws (random id, timestamp) as explicit parameters:
add is addHighlight, saveNew and saveEdit are the two branches of
saveHighlight, del is the sidebar delete handler. -/
inductive HlOp
  | add (color id text : String) (page now : Int)
  | saveNew (note id text : String) (page now : Int)
  | saveEdit (eid note : String)
  | del (hid : String)
deriving DecidableEq, Repr

/-- Effect of one operation on the highlight collection, mirroring the
corresponding handler in src/App.tsx (lines 150-162, 130-148, 315). -/
def applyHlOp (hs : List Highlight) : HlOp → List Highlight
  | .add color i text page now =>
      { id := i, page := page, text := text, color := color,
        comment := none, rects := [], timestamp := now } :: hs
  | .saveNew note i text page now =>
      { id := i, page := page, text := text, color := "bg-stone-100",
        comment := some note, rects := [], timestamp := now } :: hs
  | .saveEdit eid note =>
      hs.map fun h => if h.id = eid then { h with comment := some note } else h
  | .del hid => hs.filter fun x => x.id ≠ hid

/-- Effect of a sequence of highlight operations. -/
def applyHlOps (hs : List Highlight) (ops : List HlOp) : List Highlight :=
  ops.foldl applyHlOp hs

/-- The freshly generated id consumed by an operation, if any: add and the
create branch of save each draw one id from Math.random. -/
def genId : HlOp → Option String
  | .add _ i _ _ _ => some i
  | .saveNew _ i _ _ _ => some i
  | .saveEdit _ _ => none
  | .del _ => none

/-- Whether the id drawn by an operation (if any) avoids every id already
in the collection.  Math.random gives no such guarantee; this predicate
names the collision-freedom assumption explicitly. -/
def freshGen (hs : List Highlight) (op : HlOp) : Bool :=
  match genId op with
  | some i => decide (i ∉ hs.map Highlight.id)
  | none => true

/-- Collision-freedom along a whole operation sequence: each generated id
is fresh for the collection at the moment it is drawn. -/
def freshOps : List Highlight → List HlOp → Bool
  | _, [] => true
  | hs, op :: rest => freshGen hs op && freshOps (applyHlOp hs op) rest

/-- One navigation action preserves the page bound 1 ≤ currentPage ≤ numPages
for a document with at least one page. -/
lemma navStep_bounds (N : Int) (hN : 1 ≤ N) (s : ViewState)
    (h1 : 1 ≤ s.currentPage) (h2 : s.currentPage ≤ N) (a : NavAction) :
    1 ≤ (navStep N s a).currentPage ∧ (navStep N s a).currentPage ≤ N := by
  cases a with
  | prev =>
      simp only [navStep, prevPage]
      cases s.viewMode <;> simp only [stepOf] <;> omega
  | next =>
      simp only [navStep, nextPage]
      cases s.viewMode <;> simp only [stepOf] <;> omega
  | setMode m => exact ⟨h1, h2⟩

/-- C1: for a loaded document with numPages ≥ 1 pages, every sequence of
navigation actions (prev/next in single or double mode, mode switches
included) starting from currentPage = 1 keeps currentPage within
[1, numPages]; quantifying over all action lists covers the state after
each individual action. -/
theorem currentPage_in_range (N : Int) (hN : 1 ≤ N) (m : ViewMode)
    (acts : List NavAction) :
    1 ≤ (navRun N ⟨1, m⟩ acts).currentPage ∧ (navRun N ⟨1, m⟩ acts).currentPage ≤ N := by
  suffices h : ∀ s : ViewState, 1 ≤ s.currentPage → s.currentPage ≤ N →
      1 ≤ (navRun N s acts).currentPage ∧ (navRun N s acts).currentPage ≤ N from
    h ⟨1, m⟩ le_rfl hN
  induction acts with
  | nil => intro s h1 h2; exact ⟨h1, h2⟩
  | cons a rest ih =>
      intro s h1 h2
      have hstep := navStep_bounds N hN s h1 h2 a
      simpa [navRun, List.foldl_cons] using ih (navStep N s a) hstep.1 hstep.2

/-- Witness for C1 at the concrete input N = 3, double mode, one next action. -/
theorem currentPage_in_range_witness :
    1 ≤ (navRun 3 ⟨1, ViewMode.double⟩ [NavAction.next]).currentPage ∧
      (navRun 3 ⟨1, ViewMode.double⟩ [NavAction.next]).currentPage ≤ 3 :=
  currentPage_in_range 3 (by decide) ViewMode.double [NavAction.next]

/-- C4 counterexample: with numPages = 4, the executable click sequence
switch to single, next, switch to double (every fired button enabled: next
fires at page 1 in single mode since 1 < 4) runs 1 → 1 → 2 → 2 and ends in
double mode at currentPage = 2 with the pair (2, 3) displayed (2 + 1 ≤ 4),
an even/odd pair: double mode does not always show an odd/even pair
starting at currentPage. -/
theorem double_mode_even_pair_reachable :
    (navRunUI 4 ⟨1, ViewMode.double⟩
        [NavAction.setMode ViewMode.single, NavAction.next,
         NavAction.setMode ViewMode.double]).viewMode = ViewMode.double ∧
    (navRunUI 4 ⟨1, ViewMode.double⟩
        [NavAction.setMode ViewMode.single, NavAction.next,
         NavAction.setMode ViewMode.double]).currentPage = 2 ∧
    (navRunUI 4 ⟨1, ViewMode.double⟩
        [NavAction.setMode ViewMode.single, NavAction.next,
         NavAction.setMode ViewMode.double]).currentPage % 2 = 0 ∧
    (navRunUI 4 ⟨1, ViewMode.double⟩
        [NavAction.setMode ViewMode.single, NavAction.next,
         NavAction.setMode ViewMode.double]).currentPage + 1 ≤ 4 := by
  decide

/-- C4 (amended): a forward or backward click that fires (its button being
enabled) changes currentPage by exactly 2 in double mode and 1 in single
mode, except a backward click in double mode from page 2, which is clamped
at the lower boundary to page 1; clicks on disabled buttons do not fire
and leave the state unchanged, so the upper boundary never needs its
clamp. -/
theorem nav_click_moves_by_step (N p : Int) (h1 : 1 ≤ p) (h2 : p ≤ N) :
    (p + 1 ≤ N → (navStepUI N ⟨p, ViewMode.single⟩ NavAction.next).currentPage = p + 1) ∧
    (2 ≤ p → (navStepUI N ⟨p, ViewMode.single⟩ NavAction.prev).currentPage = p - 1) ∧
    (p + 2 ≤ N → (navStepUI N ⟨p, ViewMode.double⟩ NavAction.next).currentPage = p + 2) ∧
    (3 ≤ p → (navStepUI N ⟨p, ViewMode.double⟩ NavAction.prev).currentPage = p - 2) ∧
    (p = 2 → (navStepUI N ⟨p, ViewMode.double⟩ NavAction.prev).currentPage = 1) ∧
    (N ≤ p → navStepUI N ⟨p, ViewMode.single⟩ NavAction.next = ⟨p, ViewMode.single⟩) ∧
    (N - 1 ≤ p → navStepUI N ⟨p, ViewMode.double⟩ NavAction.next = ⟨p, ViewMode.double⟩) ∧
    (p ≤ 1 → navStepUI N ⟨p, ViewMode.single⟩ NavAction.prev = ⟨p, ViewMode.single⟩) ∧
    (p ≤ 1 → navStepUI N ⟨p, ViewMode.double⟩ NavAction.prev = ⟨p, ViewMode.double⟩) := by
  refine ⟨?_, ?_, ?_, ?_, ?_, ?_, ?_, ?_, ?_⟩
  · intro h
    simp only [navStepUI]
    rw [if_neg (by simp; omega)]
    simp only [nextPage, stepOf]
    omega
  · intro h
    simp only [navStepUI]
    rw [if_neg (by omega)]
    simp only [prevPage, stepOf]
    omega
  · intro h
    simp only [navStepUI]
    rw [if_neg (by simp; omega)]
    simp only [nextPage, stepOf]
    omega
  · intro h
    simp only [navStepUI]
    rw [if_neg (by omega)]
    simp only [prevPage, stepOf]
    omega
  · intro h
    simp only [navStepUI]
    rw [if_neg (by omega)]
    simp only [prevPage, stepOf]
    omega
  · intro h
    simp only [navStepUI]
    rw [if_pos (Or.inl h)]
  · intro h
    simp only [navStepUI]
    rw [if_pos (Or.inr ⟨by trivial, h⟩)]
  · intro h
    simp only [navStepUI]
    rw [if_pos h]
  · intro h
    simp only [navStepUI]
    rw [if_pos h]

/-- Witness for C4 at N = 10: an enabled double-mode next click at page 5
lands on page 7, and an enabled double-mode prev click at page 2 clamps to
page 1. -/
theorem nav_click_moves_by_step_witness :
    (navStepUI 10 ⟨5, ViewMode.double⟩ NavAction.next).currentPage = 5 + 2 ∧
      (navStepUI 10 ⟨2, ViewMode.double⟩ NavAction.prev).currentPage = 1 :=
  ⟨(nav_click_moves_by_step 10 5 (by decide) (by decide)).2.2.1 (by decide),
   (nav_click_moves_by_step 10 2 (by decide) (by decide)).2.2.2.2.1 rfl⟩

/-- C2: for every input text, getWordInsights returns the parsed response
verbatim when the response parses, and on parse failure returns exactly the
fallback record: word = the input text, meaning = the static not-found
message, synonyms = []. -/
theorem getWordInsights_spec (text : String) (d : DictionaryResult) :
    getWordInsights text (some d) = d ∧
    getWordInsights text none =
      { word := text,
        meaning := "Não foi possível encontrar a definição.",
        synonyms := [] } :=
  ⟨rfl, rfl⟩

/-- C3: on a state with a nonempty selection, addHighlight with color C
prepends a record with the freshly drawn id, page = currentPage,
text = selectedText, color = C and no comment; the prior records follow
unchanged in content and order, the drawn id (fresh by hypothesis on the
random draw) occurs in no later record, and the selection is cleared. -/
theorem addHighlight_spec (s : AppState) (color newId : String) (now : Int)
    (hsel : s.selectedText ≠ "")
    (hfresh : newId ∉ s.highlights.map Highlight.id) :
    (addHighlight s color newId now).highlights =
      { id := newId, page := s.currentPage, text := s.selectedText,
        color := color, comment := none, rects := [], timestamp := now }
        :: s.highlights ∧
    (addHighlight s color newId now).selectedText = "" ∧
    newId ∉ (addHighlight s color newId now).highlights.tail.map Highlight.id := by
  refine ⟨rfl, rfl, ?_⟩
  simpa [addHighlight] using hfresh

/-- Witness for C3 on a concrete one-highlight state. -/
theorem addHighlight_spec_witness :
    (addHighlight
        { pdfDoc := some ⟨9⟩, numPages := 9, currentPage := 4,
          highlights := [{ id := "x1", page := 1, text := "old", color := "bg-blue-200",
                           comment := none, rects := [], timestamp := 5 }],
          selectedText := "casa", showAnnotationModal := false, activeNote := "",
          editingHighlightId := none, viewMode := ViewMode.double, scale := 1.2 }
        "bg-yellow-200" "n7" 10).highlights =
      { id := "n7", page := 4, text := "casa", color := "bg-yellow-200",
        comment := none, rects := [], timestamp := 10 }
        :: [{ id := "x1", page := 1, text := "old", color := "bg-blue-200",
              comment := none, rects := [], timestamp := 5 }] ∧
    (addHighlight
        { pdfDoc := some ⟨9⟩, numPages := 9, currentPage := 4,
          highlights := [{ id := "x1", page := 1, text := "old", color := "bg-blue-200",
                           comment := none, rects := [], timestamp := 5 }],
          selectedText := "casa", showAnnotationModal := false, activeNote := "",
          editingHighlightId := none, viewMode := ViewMode.double, scale := 1.2 }
        "bg-yellow-200" "n7" 10).selectedText = "" ∧
    "n7" ∉ ((addHighlight
        { pdfDoc := some ⟨9⟩, numPages := 9, currentPage := 4,
          highlights := [{ id := "x1", page := 1, text := "old", color := "bg-blue-200",
                           comment := none, rects := [], timestamp := 5 }],
          selectedText := "casa", showAnnotationModal := false, activeNote := "",
          editingHighlightId := none, viewMode := ViewMode.double, scale := 1.2 }
        "bg-yellow-200" "n7" 10).highlights.tail.map Highlight.id) :=
  addHighlight_spec
    { pdfDoc := some ⟨9⟩, numPages := 9, currentPage := 4,
      highlights := [{ id := "x1", page := 1, text := "old", color := "bg-blue-200",
                       comment := none, rects := [], timestamp := 5 }],
      selectedText := "casa", showAnnotationModal := false, activeNote := "",
      editingHighlightId := none, viewMode := ViewMode.double, scale := 1.2 }
    "bg-yellow-200" "n7" 10 (by decide) (by decide)

/-- Mapping the comment update over records whose id differs from the
edited id leaves the list unchanged. -/
lemma map_update_of_ne (eid note : String) (l : List Highlight)
    (hl : ∀ h ∈ l, h.id ≠ eid) :
    (l.map fun h => if h.id = eid then { h with comment := some note } else h) = l := by
  induction l with
  | nil => rfl
  | cons a t ih =>
      have ha : a.id ≠ eid := hl a (List.mem_cons_self a t)
      simp only [List.map_cons, if_neg ha, List.cons.injEq, true_and]
      exact ih fun h hh => hl h (List.mem_cons_of_mem a hh)

/-- C5: saving while editing the record with id eid (which occurs once)
replaces only that record's comment with the note buffer; its id, page,
text, color, timestamp, rects, its position, and every other record are
unchanged. -/
theorem saveHighlight_edit_spec (s : AppState) (eid newId : String) (now : Int)
    (l₁ l₂ : List Highlight) (h : Highlight)
    (heid : s.editingHighlightId = some eid)
    (hsplit : s.highlights = l₁ ++ h :: l₂)
    (hmatch : h.id = eid)
    (hothers : ∀ h' ∈ l₁ ++ l₂, h'.id ≠ eid) :
    (saveHighlight s newId now).highlights =
      l₁ ++ { h with comment := some s.activeNote } :: l₂ := by
  have hl₁ : ∀ h' ∈ l₁, h'.id ≠ eid := fun h' hh =>
    hothers h' (List.mem_append_left _ hh)
  have hl₂ : ∀ h' ∈ l₂, h'.id ≠ eid := fun h' hh =>
    hothers h' (List.mem_append_right _ hh)
  simp only [saveHighlight, heid, closeAnnotationModal, hsplit, List.map_append,
    List.map_cons, if_pos hmatch, map_update_of_ne _ _ _ hl₁, map_update_of_ne _ _ _ hl₂]

/-- Witness for C5 on a concrete two-highlight state, editing the second
record. -/
theorem saveHighlight_edit_spec_witness :
    (saveHighlight
        { pdfDoc := some ⟨9⟩, numPages := 9, currentPage := 4,
          highlights :=
            [{ id := "x1", page := 1, text := "old", color := "bg-blue-200",
               comment := none, rects := [], timestamp := 5 },
             { id := "x2", page := 2, text := "casa", color := "bg-pink-200",
               comment := some "antiga", rects := [], timestamp := 6 }],
          selectedText := "casa", showAnnotationModal := true, activeNote := "nova nota",
          editingHighlightId := some "x2", viewMode := ViewMode.double, scale := 1.2 }
        "n7" 10).highlights =
      [{ id := "x1", page := 1, text := "old", color := "bg-blue-200",
         comment := none, rects := [], timestamp := 5 }] ++
        { id := "x2", page := 2, text := "casa", color := "bg-pink-200",
          comment := some "nova nota", rects := [], timestamp := 6 } :: [] :=
  saveHighlight_edit_spec
    { pdfDoc := some ⟨9⟩, numPages := 9, currentPage := 4,
      highlights :=
        [{ id := "x1", page := 1, text := "old", color := "bg-blue-200",
           comment := none, rects := [], timestamp := 5 },
         { id := "x2", page := 2, text := "casa", color := "bg-pink-200",
           comment := some "antiga", rects := [], timestamp := 6 }],
      selectedText := "casa", showAnnotationModal := true, activeNote := "nova nota",
      editingHighlightId := some "x2", viewMode := ViewMode.double, scale := 1.2 }
    "x2" "n7" 10
    [{ id := "x1", page := 1, text := "old", color := "bg-blue-200",
       comment := none, rects := [], timestamp := 5 }]
    []
    { id := "x2", page := 2, text := "casa", color := "bg-pink-200",
      comment := some "antiga", rects := [], timestamp := 6 }
    rfl rfl rfl (by decide)

/-- C6: deleting by id removes exactly the (unique) matching record,
preserving the order of the rest, and is a no-op when no record carries
that id. -/
theorem deleteHighlight_spec (s : AppState) (hid : String) :
    (∀ l₁ l₂ (h : Highlight), s.highlights = l₁ ++ h :: l₂ → h.id = hid →
        (∀ h' ∈ l₁ ++ l₂, h'.id ≠ hid) →
        (deleteHighlight s hid).highlights = l₁ ++ l₂) ∧
    ((∀ h ∈ s.highlights, h.id ≠ hid) →
        (deleteHighlight s hid).highlights = s.highlights) := by
  constructor
  · intro l₁ l₂ h hsplit hmatch hothers
    have hl₁ : ∀ h' ∈ l₁, h'.id ≠ hid := fun h' hh =>
      hothers h' (List.mem_append_left _ hh)
    have hl₂ : ∀ h' ∈ l₂, h'.id ≠ hid := fun h' hh =>
      hothers h' (List.mem_append_right _ hh)
    have pl₁ : l₁.filter (fun x => decide (x.id ≠ hid)) = l₁ :=
      List.filter_eq_self.mpr fun h' hh => by simpa using hl₁ h' hh
    have pl₂ : l₂.filter (fun x => decide (x.id ≠ hid)) = l₂ :=
      List.filter_eq_self.mpr fun h' hh => by simpa using hl₂ h' hh
    have ph : (decide (h.id ≠ hid)) = false := by simp [hmatch]
    simp only [deleteHighlight, hsplit, List.filter_append, List.filter_cons, ph,
      if_false, pl₁, pl₂, Bool.false_eq_true]
  · intro hnone
    simp only [deleteHighlight]
    exact List.filter_eq_self.mpr fun h hh => by simpa using hnone h hh

/-- Witness for C6: deleting id x1 from a concrete two-highlight state
removes exactly that record. -/
theorem deleteHighlight_spec_witness :
    (deleteHighlight
        { pdfDoc := some ⟨9⟩, numPages := 9, currentPage := 4,
          highlights :=
            [{ id := "x1", page := 1, text := "old", color := "bg-blue-200",
               comment := none, rects := [], timestamp := 5 },
             { id := "x2", page := 2, text := "casa", color := "bg-pink-200",
               comment := some "antiga", rects := [], timestamp := 6 }],
          selectedText := "", showAnnotationModal := false, activeNote := "",
          editingHighlightId := none, viewMode := ViewMode.double, scale := 1.2 }
        "x1").highlights =
      [] ++ [{ id := "x2", page := 2, text := "casa", color := "bg-pink-200",
               comment := some "antiga", rects := [], timestamp := 6 }] :=
  (deleteHighlight_spec
      { pdfDoc := some ⟨9⟩, numPages := 9, currentPage := 4,
        highlights :=
          [{ id := "x1", page := 1, text := "old", color := "bg-blue-200",
             comment := none, rects := [], timestamp := 5 },
           { id := "x2", page := 2, text := "casa", color := "bg-pink-200",
             comment := some "antiga", rects := [], timestamp := 6 }],
        selectedText := "", showAnnotationModal := false, activeNote := "",
        editingHighlightId := none, viewMode := ViewMode.double, scale := 1.2 }
      "x1").1
    []
    [{ id := "x2", page := 2, text := "casa", color := "bg-pink-200",
       comment := some "antiga", rects := [], timestamp := 6 }]
    { id := "x1", page := 1, text := "old", color := "bg-blue-200",
      comment := none, rects := [], timestamp := 5 }
    rfl rfl (by decide)

/-- C7: with the annotation modal open and a note buffer whose trimmed
content is empty, clicking save (whose button is disabled exactly then)
changes nothing: the whole state, highlights included, is unchanged and
the modal stays open. -/
theorem clickSave_empty_note_rejected (s : AppState) (newId : String) (now : Int)
    (hopen : s.showAnnotationModal = true)
    (hempty : jsTrim s.activeNote = "") :
    clickSave s newId now = s ∧
    (clickSave s newId now).highlights = s.highlights ∧
    (clickSave s newId now).showAnnotationModal = true := by
  have hcs : clickSave s newId now = s := by simp [clickSave, hempty]
  exact ⟨hcs, by rw [hcs], by rw [hcs, hopen]⟩

/-- Witness for C7 on a concrete open-modal state with a whitespace-only
note buffer. -/
theorem clickSave_empty_note_rejected_witness :
    clickSave
        { pdfDoc := some ⟨9⟩, numPages := 9, currentPage := 4,
          highlights := [], selectedText := "casa", showAnnotationModal := true,
          activeNote := "  ", editingHighlightId := none,
          viewMode := ViewMode.double, scale := 1.2 }
        "n7" 10 =
      { pdfDoc := some ⟨9⟩, numPages := 9, currentPage := 4,
        highlights := [], selectedText := "casa", showAnnotationModal := true,
        activeNote := "  ", editingHighlightId := none,
        viewMode := ViewMode.double, scale := 1.2 } :=
  (clickSave_empty_note_rejected
      { pdfDoc := some ⟨9⟩, numPages := 9, currentPage := 4,
        highlights := [], selectedText := "casa", showAnnotationModal := true,
        activeNote := "  ", editingHighlightId := none,
        viewMode := ViewMode.double, scale := 1.2 }
      "n7" 10 rfl (by decide)).1

/-- C8 counterexample: loading a 5-page document over a state whose zoom
scale is 2 and whose view mode is single leaves scale = 2 ≠ initialScale
and viewMode = single ≠ initialViewMode: onFileChange does not reset scale
or viewMode to their initial values. -/
theorem onFileChange_keeps_scale_and_mode :
    (onFileChange
        { pdfDoc := some ⟨3⟩, numPages := 3, currentPage := 2,
          highlights := [], selectedText := "", showAnnotationModal := false,
          activeNote := "", editingHighlightId := none,
          viewMode := ViewMode.single, scale := 2 }
        (some ⟨5⟩)).scale = 2 ∧
    (2 : Rat) ≠ initialScale ∧
    (onFileChange
        { pdfDoc := some ⟨3⟩, numPages := 3, currentPage := 2,
          highlights := [], selectedText := "", showAnnotationModal := false,
          activeNote := "", editingHighlightId := none,
          viewMode := ViewMode.single, scale := 2 }
        (some ⟨5⟩)).viewMode = ViewMode.single ∧
    ViewMode.single ≠ initialViewMode := by
  refine ⟨rfl, ?_, rfl, by decide⟩
  intro hcontra
  have : (2 : Rat) = 1.2 := hcontra
  norm_num at this

/-- C8 (amended): loading a new document stores it, sets numPages to the
new page count and resets currentPage to 1; scale, viewMode and the other
state fields keep their previous values. -/
theorem onFileChange_spec (s : AppState) (pdf : PdfDoc) :
    (onFileChange s (some pdf)).pdfDoc = some pdf ∧
    (onFileChange s (some pdf)).numPages = pdf.numPages ∧
    (onFileChange s (some pdf)).currentPage = 1 ∧
    (onFileChange s (some pdf)).scale = s.scale ∧
    (onFileChange s (some pdf)).viewMode = s.viewMode ∧
    (onFileChange s (some pdf)).highlights = s.highlights :=
  ⟨rfl, rfl, rfl, rfl, rfl, rfl⟩

/-- Characterisation of when renderPage requests a page: exactly when a
document and a canvas are present and the page number is in range. -/
lemma renderPage_eq_some_iff (doc : Option PdfDoc) (N p : Int)
    (c : Option Canvas) (n : Int) :
    renderPage doc N p c = some n ↔
      doc.isSome ∧ c.isSome ∧ 1 ≤ p ∧ p ≤ N ∧ n = p := by
  cases doc <;> cases c <;> simp [renderPage] <;> omega

/-- C10: a page is fetched and rendered only when a document is loaded,
the target canvas exists and the page number lies in [1, numPages]; with
no document, no canvas, or an out-of-range page number renderPage returns
without requesting anything, and every page number the render effect
requests (including the second page of double mode) lies in
[1, numPages]. -/
theorem renderPage_guard (s : AppState) (c1 c2 : Option Canvas) :
    (∀ n ∈ renderTrigger s c1 c2, 1 ≤ n ∧ n ≤ s.numPages) ∧
    (∀ (doc : Option PdfDoc) (N p : Int) (c : Option Canvas) (n : Int),
        renderPage doc N p c = some n →
        doc.isSome ∧ c.isSome ∧ 1 ≤ p ∧ p ≤ N ∧ n = p) ∧
    (∀ (N p : Int) (c : Option Canvas), renderPage none N p c = none) ∧
    (∀ (doc : Option PdfDoc) (N p : Int), renderPage doc N p none = none) ∧
    (∀ (doc : Option PdfDoc) (N p : Int) (c : Option Canvas),
        p < 1 ∨ N < p → renderPage doc N p c = none) := by
  refine ⟨?_, ?_, ?_, ?_, ?_⟩
  · intro n hn
    unfold renderTrigger at hn
    split at hn
    · simp at hn
    · rcases List.mem_append.mp hn with hn1 | hn2
      · rcases Option.mem_toList.mp hn1 with hr
        have := (renderPage_eq_some_iff _ _ _ _ _).mp hr
        omega
      · split at hn2
        · rcases Option.mem_toList.mp hn2 with hr
          have := (renderPage_eq_some_iff _ _ _ _ _).mp hr
          omega
        · simp at hn2
  · intro doc N p c n hr
    exact (renderPage_eq_some_iff doc N p c n).mp hr
  · intro N p c
    cases c <;> rfl
  · intro doc N p
    cases doc <;> rfl
  · intro doc N p c hout
    cases doc <;> cases c <;> simp [renderPage] <;> omega

/-- Witness for C10: on a 3-page document in double mode at the last page,
the render effect requests page 3 and it is within range. -/
theorem renderPage_guard_witness :
    1 ≤ (3 : Int) ∧ (3 : Int) ≤
      ({ pdfDoc := some ⟨3⟩, numPages := 3, currentPage := 3,
         highlights := [], selectedText := "", showAnnotationModal := false,
         activeNote := "", editingHighlightId := none,
         viewMode := ViewMode.double, scale := 1.2 } : AppState).numPages :=
  (renderPage_guard
      { pdfDoc := some ⟨3⟩, numPages := 3, currentPage := 3,
        highlights := [], selectedText := "", showAnnotationModal := false,
        activeNote := "", editingHighlightId := none,
        viewMode := ViewMode.double, scale := 1.2 }
      (some Canvas.mk) (some Canvas.mk)).1 3 (by decide)

/-- The highlight-collection effect of addHighlight is the add operation. -/
lemma addHighlight_eq_applyHlOp (s : AppState) (color newId : String) (now : Int) :
    (addHighlight s color newId now).highlights =
      applyHlOp s.highlights (.add color newId s.selectedText s.currentPage now) :=
  rfl

/-- The highlight-collection effect of the create branch of saveHighlight
is the saveNew operation. -/
lemma saveHighlight_new_eq_applyHlOp (s : AppState) (newId : String) (now : Int)
    (hnone : s.editingHighlightId = none) :
    (saveHighlight s newId now).highlights =
      applyHlOp s.highlights (.saveNew s.activeNote newId s.selectedText s.currentPage now) := by
  simp [saveHighlight, hnone, closeAnnotationModal, applyHlOp]

/-- The highlight-collection effect of the edit branch of saveHighlight is
the saveEdit operation. -/
lemma saveHighlight_edit_eq_applyHlOp (s : AppState) (eid newId : String) (now : Int)
    (heid : s.editingHighlightId = some eid) :
    (saveHighlight s newId now).highlights =
      applyHlOp s.highlights (.saveEdit eid s.activeNote) := by
  simp [saveHighlight, heid, closeAnnotationModal, applyHlOp]

/-- The highlight-collection effect of the sidebar delete handler is the
del operation. -/
lemma deleteHighlight_eq_applyHlOp (s : AppState) (hid : String) :
    (deleteHighlight s hid).highlights = applyHlOp s.highlights (.del hid) :=
  rfl

/-- Replacing the comment of a record leaves its id unchanged, so the
saveEdit operation preserves the list of ids. -/
lemma applyHlOp_saveEdit_map_id (hs : List Highlight) (eid note : String) :
    (applyHlOp hs (.saveEdit eid note)).map Highlight.id = hs.map Highlight.id := by
  simp only [applyHlOp, List.map_map]
  congr 1
  funext h
  by_cases hc : h.id = eid <;> simp [Function.comp, hc]

/-- One operation preserves distinctness of ids, provided the id it draws
(if any) is fresh for the current collection. -/
lemma applyHlOp_nodup (hs : List Highlight) (op : HlOp)
    (hnd : (hs.map Highlight.id).Nodup)
    (hf : freshGen hs op = true) :
    ((applyHlOp hs op).map Highlight.id).Nodup := by
  cases op with
  | add color i text page now =>
      have hfresh : ∀ x ∈ hs, ¬x.id = i := by
        simpa [freshGen, genId] using hf
      simpa [applyHlOp, List.nodup_cons] using ⟨hfresh, hnd⟩
  | saveNew note i text page now =>
      have hfresh : ∀ x ∈ hs, ¬x.id = i := by
        simpa [freshGen, genId] using hf
      simpa [applyHlOp, List.nodup_cons] using ⟨hfresh, hnd⟩
  | saveEdit eid note =>
      rw [applyHlOp_saveEdit_map_id]
      exact hnd
  | del hid =>
      exact hnd.sublist ((List.filter_sublist hs).map Highlight.id)

/-- C9 counterexample: the id strings are drawn from Math.random with no
collision check, so a sequence of two addHighlight calls whose random
draws coincide (possible, merely improbable) yields a collection whose ids
are not pairwise distinct; the claim fails for that reachable collection. -/
theorem duplicate_ids_reachable :
    ¬ ((applyHlOps []
        [HlOp.add "bg-yellow-200" "q3k8z0f1m" "casa" 1 0,
         HlOp.add "bg-blue-200" "q3k8z0f1m" "lar" 1 1]).map Highlight.id).Nodup := by
  decide

/-- C9 (amended): as long as every id drawn by an add or create-save
operation is fresh for the collection at that moment (which the random
generator makes overwhelmingly likely but does not guarantee), every
collection reachable by addHighlight, saveHighlight and delete operations
from a collection with pairwise-distinct ids has pairwise-distinct ids. -/
theorem highlight_ids_nodup (hs : List Highlight) (ops : List HlOp)
    (hnd : (hs.map Highlight.id).Nodup)
    (hf : freshOps hs ops = true) :
    ((applyHlOps hs ops).map Highlight.id).Nodup := by
  induction ops generalizing hs with
  | nil => simpa [applyHlOps] using hnd
  | cons op rest ih =>
      have hf1 : freshGen hs op = true ∧ freshOps (applyHlOp hs op) rest = true := by
        simpa [freshOps, Bool.and_eq_true] using hf
      have hstep := applyHlOp_nodup hs op hnd hf1.1
      simpa [applyHlOps, List.foldl_cons] using ih (applyHlOp hs op) hstep hf1.2

/-- Witness for C9 on a concrete fresh-id operation sequence: add, create
via save, edit and delete. -/
theorem highlight_ids_nodup_witness :
    ((applyHlOps []
        [HlOp.add "bg-yellow-200" "q3k8z0f1m" "casa" 1 0,
         HlOp.saveNew "nota" "a1b2c3d4e" "lar" 1 1,
         HlOp.saveEdit "q3k8z0f1m" "outra",
         HlOp.del "a1b2c3d4e"]).map Highlight.id).Nodup :=
  highlight_ids_nodup []
    [HlOp.add "bg-yellow-200" "q3k8z0f1m" "casa" 1 0,
     HlOp.saveNew "nota" "a1b2c3d4e" "lar" 1 1,
     HlOp.saveEdit "q3k8z0f1m" "outra",
     HlOp.del "a1b2c3d4e"]
    (by decide) (by decide)

end Lumina
